import Mathlib

/-!
# Verification of the tonal pitch core (src/dist/tonal.js)

A shallow embedding of the pitch data model and arithmetic of the tonal
library: the line-of-fifths encoder/decoder, transposition and distance,
interval simplification, the string serializers and the midi/frequency
conversions.  Pitch values `['tnl', fifths]`, `['tnl', fifths, oct]` and
`['tnl', fifths, oct, dir]` are embedded as a three-constructor inductive
type; javascript numbers in this domain are integers and are embedded as
`Int`; fallible operations return `Option`.

The two external text-grammar collaborators (`note-parser` and
`interval-notation`) are not part of this repository; the pieces of them
that the claims need are modelled from the specification and are marked
`Modelled from the spec:` in their doc comments.
-/

namespace Tonal

/-- A pitch value `['tnl', ...]`.  The arity of the source array determines
the variant: 2 elements = pitch class, 3 = note, 4 = interval. -/
inductive Pitch where
  | pc (f : Int)
  | note (f o : Int)
  | itv (f o d : Int)
deriving DecidableEq, Repr

/-- `p[1]`: the line-of-fifths coordinate of any pitch value. -/
def fifthsOf : Pitch → Int
  | .pc f => f
  | .note f _ => f
  | .itv f _ _ => f

/-- `p[2]`: the octave offset.  For a pitch class the source array has no
third element (javascript `undefined`); every caller guards with
`hasOct`/`isInterval` before reading it, so the `0` returned here for a
pitch class is never observed. -/
def octOf : Pitch → Int
  | .pc _ => 0
  | .note _ o => o
  | .itv _ o _ => o

/-- Source `isPitch`: the value is a `['tnl', ...]` array (possibly-null
values are `Option Pitch` here). -/
def isPitch (p : Option Pitch) : Bool := p.isSome

/-- Source `isPitchClass`: a pitch of arity 2. -/
def isPitchClass : Option Pitch → Bool
  | some (.pc _) => true
  | _ => false

/-- Source `hasOct`: a pitch whose `p[2]` is a number. -/
def hasOct : Option Pitch → Bool
  | some (.note _ _) => true
  | some (.itv _ _ _) => true
  | _ => false

/-- Source `isPitchNote`: a pitch of arity 3 with numeric octave. -/
def isPitchNote : Option Pitch → Bool
  | some (.note _ _) => true
  | _ => false

/-- Source `isInterval`: a pitch with numeric `p[2]` and numeric `p[3]`. -/
def isInterval : Option Pitch → Bool
  | some (.itv _ _ _) => true
  | _ => false

/-- `FIFTHS = [0, 2, 4, -1, 1, 3, 5]`: step letter to line-of-fifths. -/
def FIFTHS : List Int := [0, 2, 4, -1, 1, 3, 5]

/-- `encPC(step, alt) = FIFTHS[step] + 7 * alt`.  Callers guarantee
`0 ≤ step ≤ 6`, so the `getD` default is never used. -/
def encPC (step alt : Int) : Int := FIFTHS.getD step.toNat 0 + 7 * alt

/-- `fifthsSpan(f) = Math.floor(f * 7 / 12)`.  `Int` division in Lean is
euclidean, which agrees with the floor for the positive divisor 12. -/
def fifthsSpan (f : Int) : Int := f * 7 / 12

/-- `FIFTH_OCTS = FIFTHS.map(fifthsSpan)`. -/
def FIFTH_OCTS : List Int := FIFTHS.map fifthsSpan

/-- `encOct(step, alt, oct) = oct - FIFTH_OCTS[step] - 4 * alt`. -/
def encOct (step alt oct : Int) : Int :=
  oct - FIFTH_OCTS.getD step.toNat 0 - 4 * alt

/-- Source `encode(step, alt, oct, dir)`.  The optional javascript
arguments `oct` and `dir` (`isNum` tests in the source) are `Option Int`.
Returns `none` exactly when the step is out of the 0..6 range. -/
def encode (step alt : Int) (oct dir : Option Int) : Option Pitch :=
  if step < 0 ∨ 6 < step then none
  else
    let pcv := encPC step alt
    match oct with
    | none => some (.pc pcv)
    | some oc =>
      let o := encOct step alt oc
      match dir with
      | none => some (.note pcv o)
      | some dv =>
        let d : Int := if dv < 0 then -1 else 1
        some (.itv (d * pcv) (d * o) d)

/-- Source `unaltered(f)`: `(f + 1) % 7` with javascript `%` (truncated
toward zero, embedded as `Int.tmod`), corrected to be non-negative. -/
def unaltered (f : Int) : Int :=
  let i := (f + 1).tmod 7
  if i < 0 then 7 + i else i

/-- `STEPS = [3, 0, 4, 1, 5, 2, 6]`: inverse lookup from fifths to step. -/
def STEPS : List Int := [3, 0, 4, 1, 5, 2, 6]

/-- `decodeStep(f) = STEPS[unaltered(f)]`; `unaltered` always lands in
0..6, so the `getD` default is never used. -/
def decodeStep (f : Int) : Int := STEPS.getD (unaltered f).toNat 0

/-- `decodeAlt(f) = Math.floor((f + 1) / 7)`; euclidean division agrees
with the floor for the positive divisor 7. -/
def decodeAlt (f : Int) : Int := (f + 1) / 7

/-- The record returned by `decode`: `{ step, alt, oct, dir }` where `oct`
and `dir` may be null. -/
structure Decoded where
  step : Int
  alt : Int
  oct : Option Int
  dir : Option Int
deriving DecidableEq, Repr

/-- Source `decode(p)`.  `oct` is `p[2] + 4 * alt + FIFTH_OCTS[step]` when
`p[2]` is a number, else null; `dir` is `p[3] || null` (so a zero direction
decodes to null, like an absent one). -/
def decode (p : Pitch) : Decoded :=
  let s := decodeStep (fifthsOf p)
  let a := decodeAlt (fifthsOf p)
  match p with
  | .pc _ => ⟨s, a, none, none⟩
  | .note _ o => ⟨s, a, some (o + 4 * a + FIFTH_OCTS.getD s.toNat 0), none⟩
  | .itv _ o d =>
      ⟨s, a, some (o + 4 * a + FIFTH_OCTS.getD s.toNat 0),
        if d = 0 then none else some d⟩

/-! ## Pitch arithmetic (transpose, distance, simplify) -/

/-- `calcDir(f, o) = 7 * f + 12 * o < 0 ? -1 : 1`. -/
def calcDir (f o : Int) : Int := if 7 * f + 12 * o < 0 then -1 else 1

/-- `ivlp(f, o) = ['tnl', f, o, calcDir(f, o)]`. -/
def ivlp (f o : Int) : Pitch := .itv f o (calcDir f o)

/-- Source `trBy(i, p)`: add the interval `i` onto `p`, keeping the arity
of `p`.  Both call sites (`transpose`) pass an interval as `i`. -/
def trBy (i : Pitch) (p : Option Pitch) : Option Pitch :=
  match p with
  | none => none
  | some (.pc f) => some (.pc (fifthsOf i + f))
  | some (.note f o) => some (.note (fifthsOf i + f) (octOf i + o))
  | some (.itv f o _) =>
      let f2 := fifthsOf i + f
      let o2 := octOf i + o
      some (.itv f2 o2 (calcDir f2 o2))

/-- Source `transpose(a, b)` after the operands have been through
`asPitch` (string parsing of the operands and stringification of the
result belong to the external text layer; the arithmetic operates on the
parsed pitch values).  The first operand found to be an interval (checked
in order `pa`, `pb`) is added onto the other; if neither is an interval
the result is null. -/
def transpose (pa pb : Option Pitch) : Option Pitch :=
  match pa, pb with
  | some (.itv f o d), _ => trBy (.itv f o d) pb
  | _, some (.itv f o d) => trBy (.itv f o d) pa
  | _, _ => none

/-- The function wrapped by `simplify = ivlFn(...)`: on an interval value
the `ivlFn` decorator applies the inner function directly.  The
passthrough arm for non-interval pitches is never reached through the
library (the decorator's callers only hand it intervals). -/
def simplify : Pitch → Pitch
  | .itv f _ d =>
      let s := decodeStep (d * f)
      let a := decodeAlt (d * f)
      .itv f (-d * (FIFTH_OCTS.getD s.toNat 0 + 4 * a)) d
  | p => p

/-- The function wrapped by `simplifyAsc = ivlFn(...)`: simplify, then
force an ascending direction, bumping the octave count when the
simplified form was descending. -/
def simplifyAsc (i : Pitch) : Pitch :=
  match simplify i with
  | .itv f o d => if d = 1 then .itv f o d else .itv f (o + 1) 1
  | p => p

/-- Source `substr(a, b)`: pitch-class distance is the ascending-forced
simplification of the fifths difference; note and interval distances are
component-wise subtraction re-wrapped by `ivlp`; mixed or missing
variants give null. -/
def substr : Option Pitch → Option Pitch → Option Pitch
  | some (.pc fa), some (.pc fb) => some (simplifyAsc (ivlp (fb - fa) 0))
  | some (.note fa oa), some (.note fb ob) => some (ivlp (fb - fa) (ob - oa))
  | some (.itv fa oa _), some (.itv fb ob _) => some (ivlp (fb - fa) (ob - oa))
  | _, _ => none

/-! ## String serialization -/

/-- `toLetter(s) = 'CDEFGAB'[s % 7]` (javascript `%`); `decode` only ever
produces steps 0..6, for which `tmod` and `toNat` are the identity. -/
def toLetter (s : Int) : String :=
  String.mk [(['C', 'D', 'E', 'F', 'G', 'A', 'B']).getD (s.tmod 7).toNat 'C']

/-- `fillStr(s, num)`: `num` copies of the character (absolute value). -/
def fillStr (c : Char) (num : Int) : String :=
  String.mk (List.replicate num.natAbs c)

/-- `toAcc(n)`: `n` sharps for positive `n`, `-n` flats for negative. -/
def toAcc (n : Int) : String := fillStr (if n < 0 then 'b' else '#') n

/-- `strNum(n)`: the octave number, or the empty string for null. -/
def strNum : Option Int → String
  | none => ""
  | some n => toString n

/-- The letter-accidental-octave rendering used by `strNote`. -/
def strNoteFmt (p : Decoded) : String :=
  toLetter p.step ++ toAcc p.alt ++ strNum p.oct

/-- Source `strNote(n)`: formats any pitch whose `n[3]` is falsy (pitch
classes, notes, and intervals with zero direction); null otherwise. -/
def strNote : Pitch → Option String
  | .pc f => some (strNoteFmt (decode (.pc f)))
  | .note f o => some (strNoteFmt (decode (.note f o)))
  | .itv f o d =>
      if d = 0 then some (strNoteFmt (decode (.itv f o d))) else none

/-- `isAsc(p) = p.dir === 1`. -/
def isAsc (p : Decoded) : Bool := p.dir = some 1

/-- Modelled from the spec: `interval-notation`'s `type(num)` (the
collaborator is not part of this repository) — unisons, fourths and
fifths (and their octave shifts) form the perfect class. -/
def isPerfNum (num : Int) : Bool :=
  let i := (num - 1).tmod 7
  i = 0 ∨ i = 3 ∨ i = 4

/-- `isPerf(p)`: the simple interval number `p.step + 1` is perfect. -/
def isPerf (p : Decoded) : Bool := isPerfNum (p.step + 1)

/-- Source `calcNum(p)`.  `p.oct` is always present on the intervals this
is called with; `getD 0` stands for that guarantee. -/
def calcNum (p : Decoded) : Int :=
  if isAsc p then p.step + 1 + 7 * p.oct.getD 0
  else (8 - p.step) - 7 * (p.oct.getD 0 + 1)

/-- Source `calcAlt(p)`: ascending keeps the alteration; descending
negates it, shifted by one for the imperfect class. -/
def calcAlt (p : Decoded) : Int :=
  if isAsc p then p.alt
  else if isPerf p then -p.alt
  else -(p.alt + 1)

/-- Modelled from the spec: `interval-notation`'s `altToQ(num, alt)` (the
collaborator is not part of this repository) — the quality letters for a
given interval number class and alteration. -/
def altToQ (num alt : Int) : String :=
  if isPerfNum num then
    if alt = 0 then "P"
    else if alt < 0 then String.mk (List.replicate alt.natAbs 'd')
    else String.mk (List.replicate alt.natAbs 'A')
  else
    if alt = 0 then "M"
    else if alt = -1 then "m"
    else if alt < -1 then String.mk (List.replicate (alt.natAbs - 1) 'd')
    else String.mk (List.replicate alt.natAbs 'A')

/-- Source `strIvl(pitch)`: null unless the value is an interval; else the
signed interval number concatenated with the quality string (javascript
turns the number into text; a null `p.dir` multiplies as 0). -/
def strIvl : Pitch → Option String
  | .itv f o d =>
      let p := decode (.itv f o d)
      let num := calcNum p
      some (toString (p.dir.getD 0 * num) ++ altToQ num (calcAlt p))
  | _ => none

/-- Source `strPitch(p) = p[3] ? strIvl(p) : strNote(p)`. -/
def strPitch : Pitch → Option String
  | .itv f o d => if d = 0 then strNote (.itv f o d) else strIvl (.itv f o d)
  | p => strNote p

/-! ## Note-name parsing and midi/frequency conversion -/

/-- The javascript values the midi entry point is exercised with: strings,
numbers, and pitch-value arrays. -/
inductive JSVal where
  | str (s : String)
  | num (n : Int)
  | pitch (p : Pitch)

/-- Modelled from the spec: the letter of the note grammar, `A`-`G`,
mapped to steps with C = 0 .. B = 6. -/
def letterStep (c : Char) : Option Int :=
  if c = 'C' then some 0
  else if c = 'D' then some 1
  else if c = 'E' then some 2
  else if c = 'F' then some 3
  else if c = 'G' then some 4
  else if c = 'A' then some 5
  else if c = 'B' then some 6
  else none

/-- Length of the leading run of the character `c`, and the rest. -/
def countRun (c : Char) : List Char → Nat × List Char
  | [] => (0, [])
  | x :: xs =>
    if x = c then
      let r := countRun c xs
      (r.1 + 1, r.2)
    else (0, x :: xs)

/-- Digits to a natural number; fails on a non-digit. -/
def digitsToNat (acc : Nat) : List Char → Option Nat
  | [] => some acc
  | c :: cs =>
    if c.isDigit then digitsToNat (acc * 10 + (c.toNat - 48)) cs
    else none

/-- An optional-sign integer literal; fails on anything else. -/
def readInt (cs : List Char) : Option Int :=
  match cs with
  | [] => none
  | '-' :: ds =>
      if ds = [] then none
      else (digitsToNat 0 ds).map (fun n => -(n : Int))
  | ds => (digitsToNat 0 ds).map (fun n => (n : Int))

/-- Modelled from the spec: the external `note-parser` collaborator's
grammar `<Letter A-G><Accidentals: run of sharps or flats><Octave:
optional signed integer>`, returning step, alteration and optional
octave. -/
def noteParse (s : String) : Option (Int × Int × Option Int) :=
  match s.data with
  | [] => none
  | c :: rest =>
    match letterStep c with
    | none => none
    | some st =>
      let ar : Int × List Char :=
        match rest with
        | '#' :: _ => ((countRun '#' rest).1, (countRun '#' rest).2)
        | 'b' :: _ => (-((countRun 'b' rest).1 : Int), (countRun 'b' rest).2)
        | _ => (0, rest)
      match ar.2 with
      | [] => some (st, ar.1, none)
      | ds => (readInt ds).map (fun o => (st, ar.1, some o))

/-- Source `parseNote`: parse then `notePitch(step, alt, oct)` =
`encode(step, alt, oct)`.  The source memoizes parses in a process-wide
cache, which is observationally transparent for a pure parser and is
omitted. -/
def parseNote (s : String) : Option Pitch :=
  match noteParse s with
  | none => none
  | some (st, al, oc) => encode st al oc none

/-- Source `asNote = notation(parseNote, id)`: a pitch value passes
through, a string is parsed, anything else (a number) is not a string so
the cached parser returns null. -/
def asNote : JSVal → Option Pitch
  | .pitch p => some p
  | .str s => parseNote s
  | .num _ => none

/-- `height(p) = p[1] * 7 + 12 * p[2]`; callers guard with `hasOct`. -/
def height (p : Pitch) : Int := fifthsOf p * 7 + 12 * octOf p

/-- Source `isMidi(m)`: a non-array value in `[0, 128)`.  The numeric
comparisons coerce a string operand to a number in javascript; that
coercion is modelled for integer-literal strings (any other string is NaN
and fails the comparisons). -/
def isMidi (v : JSVal) : Bool :=
  match v with
  | .num n => if 0 ≤ n ∧ n < 128 then true else false
  | .str s =>
      match readInt s.data with
      | some n => if 0 ≤ n ∧ n < 128 then true else false
      | none => false
  | .pitch _ => false

/-- Javascript `+val` on the values `isMidi` accepts. -/
def jsNum : JSVal → Option Int
  | .num n => some n
  | .str s => readInt s.data
  | .pitch _ => none

/-- Source `midi(val)`: a parsed or given pitch with an octave maps to
`height + 12`; otherwise a raw value accepted by `isMidi` is returned as
a number; otherwise null. -/
def midi (val : JSVal) : Option Int :=
  match asNote val with
  | some p =>
      if hasOct (some p) then some (height p + 12)
      else if isMidi val then jsNum val else none
  | none => if isMidi val then jsNum val else none

/-- Source `wellTempered(ref)`: `m ? Math.pow(2, (m - 69) / 12) * ref :
null` — note the javascript truthiness test on `m`, under which a midi
number of 0 takes the null branch.  The float arithmetic is idealized
over the reals. -/
noncomputable def wellTempered (ref : ℝ) (pitch : JSVal) : Option ℝ :=
  match midi pitch with
  | some m => if m = 0 then none else some (2 ^ (((m : ℝ) - 69) / 12) * ref)
  | none => none

/-- Source `toFreq = wellTempered(440)`. -/
noncomputable def toFreq : JSVal → Option ℝ := wellTempered 440

/-! ## Helper lemmas -/

/-- C1: for every step in 0..6, alteration in -4..4 and octave in -2..9,
decoding the encoded pitch `decode(encode(step, alt, oct))` yields exactly
the same step, alteration and octave, and a null direction. -/
theorem decode_encode_note (step alt oct : Int)
    (h1 : 0 ≤ step) (h2 : step ≤ 6) (h3 : -4 ≤ alt) (h4 : alt ≤ 4)
    (h5 : -2 ≤ oct) (h6 : oct ≤ 9) :
    (encode step alt (some oct) none).map decode =
      some ⟨step, alt, some oct, none⟩ := by
  interval_cases step <;> interval_cases alt <;> interval_cases oct <;> decide

/-- Witness for C1 at step 2, alteration -1, octave 4 (the note Eb4). -/
theorem decode_encode_note_witness :
    (encode 2 (-1) (some 4) none).map decode = some ⟨2, -1, some 4, none⟩ :=
  decode_encode_note 2 (-1) 4 (by decide) (by decide) (by decide) (by decide)
    (by decide) (by decide)

/-- C2 counterexample: at step 0, alteration 0, octave 1, direction -1 the
round trip does not reproduce the input — `decode(encode(0, 0, 1, -1))`
has octave -1, not 1, because a descending interval stores its fifths and
octave offset pre-multiplied by the direction and `decode` does not undo
that multiplication. -/
theorem decode_encode_desc_cex :
    (encode 0 0 (some 1) (some (-1))).map decode ≠
      some ⟨0, 0, some 1, some (-1)⟩ := by
  decide

/-- C2 amended: for every step in 0..6, alteration in -4..4, octave in
-2..9 and ascending direction +1, `decode(encode(step, alt, oct, dir))`
reproduces the same step, alteration, octave and direction.  (For
direction -1 only the direction itself is reproduced: the decoded step,
alteration and octave are those of the direction-negated coordinates.) -/
theorem decode_encode_ivl_asc (step alt oct : Int)
    (h1 : 0 ≤ step) (h2 : step ≤ 6) (h3 : -4 ≤ alt) (h4 : alt ≤ 4)
    (h5 : -2 ≤ oct) (h6 : oct ≤ 9) :
    (encode step alt (some oct) (some 1)).map decode =
      some ⟨step, alt, some oct, some 1⟩ := by
  interval_cases step <;> interval_cases alt <;> interval_cases oct <;> decide

/-- Witness for the amended C2 at step 4, alteration 1, octave 0. -/
theorem decode_encode_ivl_asc_witness :
    (encode 4 1 (some 0) (some 1)).map decode = some ⟨4, 1, some 0, some 1⟩ :=
  decode_encode_ivl_asc 4 1 0 (by decide) (by decide) (by decide) (by decide)
    (by decide) (by decide)

/-- `simplifyAsc` always returns an interval with the same fifths
coordinate and an ascending (+1) direction. -/
theorem simplifyAsc_itv (f o d : Int) :
    ∃ o2 : Int, simplifyAsc (.itv f o d) = .itv f o2 1 := by
  refine ⟨(if d = 1 then 0 else 1) +
    -d * (FIFTH_OCTS.getD (decodeStep (d * f)).toNat 0 + 4 * decodeAlt (d * f)), ?_⟩
  unfold simplifyAsc simplify
  by_cases hd : d = 1
  · simp [hd]
  · simp [hd]
    ring

/-- C3 counterexample: with the note C4 (`['tnl', 0, 4]`) and the
descending perfect unison `-1P` (`['tnl', 0, 0, -1]`), transposing C4 by
`-1P` gives C4 again, and the distance from C4 to C4 is the ascending
unison `1P` (`['tnl', 0, 0, 1]`) — not the original interval: the
reconstructed direction comes from `calcDir`, which maps the zero height
to +1. -/
theorem distance_transpose_cex :
    substr (some (.note 0 4))
        (transpose (some (.note 0 4)) (some (.itv 0 0 (-1)))) ≠
      some (.itv 0 0 (-1)) := by
  decide

/-- C3 amended: for every note `a` and every interval `i` whose stored
direction agrees with `calcDir` on its coordinates (which excludes only
descending intervals of zero height, such as `-1P`),
`distance(a, transpose(a, i))` is exactly `i`. -/
theorem distance_transpose (fa oa fi oi di : Int)
    (h : calcDir fi oi = di) :
    substr (some (.note fa oa))
        (transpose (some (.note fa oa)) (some (.itv fi oi di))) =
      some (.itv fi oi di) := by
  have e1 : fi + fa - fa = fi := by ring
  have e2 : oi + oa - oa = oi := by ring
  simp only [transpose, trBy, fifthsOf, octOf, substr, ivlp, e1, e2, h]

/-- Witness for the amended C3: the note C4 and the ascending major
second (`['tnl', 2, -1, 1]`). -/
theorem distance_transpose_witness :
    substr (some (.note 0 4))
        (transpose (some (.note 0 4)) (some (.itv 2 (-1) 1))) =
      some (.itv 2 (-1) 1) :=
  distance_transpose 0 4 2 (-1) 1 (by decide)

/-- C4 counterexample: for the interval pair `a = b = ['tnl', 0, 0, -1]`
(the descending unison `-1P`), `transpose(a, distance(a, b))` is the
ascending unison `['tnl', 0, 0, 1]`, not `b`: the direction is
reconstructed by `calcDir`, which maps the zero height to +1. -/
theorem transpose_distance_cex :
    transpose (some (.itv 0 0 (-1)))
        (substr (some (.itv 0 0 (-1))) (some (.itv 0 0 (-1)))) ≠
      some (.itv 0 0 (-1)) := by
  decide

/-- C4 amended: `transpose(a, distance(a, b)) = b` for every same-variant
pair — unconditionally when both are pitch classes or both are notes, and
for intervals whenever `b`'s stored direction agrees with `calcDir` on
its coordinates (which excludes only descending intervals of zero
height). -/
theorem transpose_distance :
    (∀ fa fb : Int,
      transpose (some (.pc fa)) (substr (some (.pc fa)) (some (.pc fb))) =
        some (.pc fb)) ∧
    (∀ fa oa fb ob : Int,
      transpose (some (.note fa oa))
          (substr (some (.note fa oa)) (some (.note fb ob))) =
        some (.note fb ob)) ∧
    (∀ fa oa da fb ob db : Int, calcDir fb ob = db →
      transpose (some (.itv fa oa da))
          (substr (some (.itv fa oa da)) (some (.itv fb ob db))) =
        some (.itv fb ob db)) := by
  refine ⟨?_, ?_, ?_⟩
  · intro fa fb
    obtain ⟨o2, h2⟩ := simplifyAsc_itv (fb - fa) 0 (calcDir (fb - fa) 0)
    have e : fb - fa + fa = fb := by ring
    simp only [substr, ivlp, h2, transpose, trBy, fifthsOf, e]
  · intro fa oa fb ob
    have e1 : fb - fa + fa = fb := by ring
    have e2 : ob - oa + oa = ob := by ring
    simp only [substr, ivlp, transpose, trBy, fifthsOf, octOf, e1, e2]
  · intro fa oa da fb ob db h
    have e1 : fa + (fb - fa) = fb := by ring
    have e2 : oa + (ob - oa) = ob := by ring
    simp only [substr, ivlp, transpose, trBy, fifthsOf, octOf, e1, e2, h]

/-- Witness for the amended C4, one instance per variant: the pitch
classes C and A, the notes C4 and D5, and the intervals `2M` and `5P`. -/
theorem transpose_distance_witness :
    transpose (some (.pc 0)) (substr (some (.pc 0)) (some (.pc 3))) =
        some (.pc 3) ∧
    transpose (some (.note 0 4))
        (substr (some (.note 0 4)) (some (.note 2 4))) = some (.note 2 4) ∧
    transpose (some (.itv 2 (-1) 1))
        (substr (some (.itv 2 (-1) 1)) (some (.itv 1 0 1))) =
      some (.itv 1 0 1) :=
  ⟨transpose_distance.1 0 3, transpose_distance.2.1 0 4 2 4,
    transpose_distance.2.2 2 (-1) 1 1 0 1 (by decide)⟩

/-- C5: the distance between any two pitch classes is an interval with
direction +1 (ascending), whatever the operand order. -/
theorem pc_distance_ascending (fa fb : Int) :
    ∃ f o : Int,
      substr (some (Pitch.pc fa)) (some (Pitch.pc fb)) =
        some (.itv f o 1) := by
  obtain ⟨o2, h2⟩ := simplifyAsc_itv (fb - fa) 0 (calcDir (fb - fa) 0)
  exact ⟨fb - fa, o2, by simp only [substr, ivlp, h2]⟩

/-- C6 counterexample: `transpose` applied to two intervals (here the
ascending unison `1P` twice) does not return null — it adds the
intervals, because the source checks `isInterval(pa)` first and `trBy`
happily combines two intervals. -/
theorem transpose_two_intervals_cex :
    transpose (some (.itv 0 0 1)) (some (.itv 0 0 1)) = some (.itv 0 0 1) ∧
      transpose (some (.itv 0 0 1)) (some (.itv 0 0 1)) ≠ none := by
  decide

/-- C6 amended: `transpose(a, b)` is null exactly when no operand is an
interval (in particular when neither parses), or when one operand is an
interval but the other is null.  Whenever at least one operand is an
interval and the other is a pitch value — including a second interval,
which is added — a result is produced. -/
theorem transpose_null_iff (pa pb : Option Pitch) :
    transpose pa pb = none ↔
      ((isInterval pa = false ∧ isInterval pb = false) ∨
       (isInterval pa = true ∧ pb = none) ∨
       (isInterval pa = false ∧ isInterval pb = true ∧ pa = none)) := by
  cases pa with
  | none =>
    cases pb with
    | none => simp [transpose, isInterval]
    | some q => cases q <;> simp [transpose, trBy, isInterval]
  | some p =>
    cases p with
    | pc f =>
      cases pb with
      | none => simp [transpose, trBy, isInterval]
      | some q => cases q <;> simp [transpose, trBy, isInterval]
    | note f o =>
      cases pb with
      | none => simp [transpose, trBy, isInterval]
      | some q => cases q <;> simp [transpose, trBy, isInterval]
    | itv f o d =>
      cases pb with
      | none => simp [transpose, trBy, isInterval]
      | some q => cases q <;> simp [transpose, trBy, isInterval]

/-- C7: `midi("C4")` is 60; midi of a pitch class (no register) is null;
`midi(128)` and `midi(-1)` are null; and `toFreq("A4")` is 440. -/
theorem midi_freq_boundary :
    midi (.str "C4") = some 60 ∧
    (∀ f : Int, midi (.pitch (.pc f)) = none) ∧
    midi (.num 128) = none ∧
    midi (.num (-1)) = none ∧
    toFreq (.str "A4") = some 440 := by
  refine ⟨by decide, fun f => rfl, by decide, by decide, ?_⟩
  have h : midi (.str "A4") = some 69 := by decide
  simp only [toFreq, wellTempered, h]
  norm_num

/-- C8 (code bug): the note C-1 resolves to midi number 0 — a valid midi
number by the library's own `isMidi` — yet `toFreq` returns null for it:
the javascript truthiness test `m ? ... : null` in `wellTempered` sends
the midi number 0 to the null branch, while the claim (and the spec)
promise `ref * 2^((m - 69) / 12)` whenever a midi number is produced. -/
theorem wellTempered_zero_midi_bug :
    midi (.str "C-1") = some 0 ∧
    isMidi (.num 0) = true ∧
    toFreq (.str "C-1") = none := by
  refine ⟨by decide, by decide, ?_⟩
  have h : midi (.str "C-1") = some 0 := by decide
  simp [toFreq, wellTempered, h]

/-- C9 counterexample: the bare pitch class C (`['tnl', 0]`) is neither a
note nor an interval, yet the serializer does not return null — both
`strNote` and `strPitch` format it as the octave-less name C. -/
theorem strNote_pitch_class_cex :
    strPitch (.pc 0) = some "C" ∧ strNote (.pc 0) = some "C" := by
  decide

/-- C9 amended: each serializer returns null on the variant it does not
handle — `strIvl` is null on every non-interval (pitch classes and
notes), and `strNote` is null on every interval with nonzero direction —
but a bare pitch class is formatted by `strNote` (letter and accidentals,
no octave) rather than rejected. -/
theorem serializer_null_cases :
    (∀ f : Int, strIvl (.pc f) = none) ∧
    (∀ f o : Int, strIvl (.note f o) = none) ∧
    (∀ f o d : Int, d ≠ 0 → strNote (.itv f o d) = none) ∧
    (∀ f : Int, ∃ s : String, strNote (.pc f) = some s) := by
  refine ⟨fun f => rfl, fun f o => rfl, ?_, fun f => ⟨_, rfl⟩⟩
  intro f o d hd
  simp [strNote, hd]

/-- Witness for the amended C9: the ascending major second is rejected by
the note serializer. -/
theorem serializer_null_cases_witness : strNote (.itv 2 (-1) 1) = none :=
  serializer_null_cases.2.2.1 2 (-1) 1 (by decide)

/-- C10: `simplify` changes only the octave-offset component of an
interval: the fifths coordinate (element 1) and the direction (element 3)
of the result are those of the input. -/
theorem simplify_frame (f o d : Int) :
    ∃ o2 : Int, simplify (.itv f o d) = .itv f o2 d :=
  ⟨_, rfl⟩

end Tonal
